import Mathlib

/-!
Verification of the paginated search-and-filter pipeline of `grit-find`
(`src/main.rs`), a CLI that searches GitHub repositories, filters them by
release availability, windows the results locally, and downloads a chosen
release asset.  Each Rust function used by the claims is shallowly embedded
as an executable Lean definition; network responses are supplied as explicit
environments (`Nat → HttpResponse` indexed by attempt, or per-page result
functions), and the JSON deserializer of the external `serde_json` crate is
abstracted as a `String → Option String` parameter.
-/

namespace GritFind

/-- `DISPLAY_PAGE_SIZE` from `src/main.rs`: results shown per local page. -/
def DISPLAY_PAGE_SIZE : Nat := 25

/-- `MAX_RESULTS` from `src/main.rs`: total up-front fetch budget. -/
def MAX_RESULTS : Nat := 100

/-- `struct Repo` from `src/main.rs` (a search-result candidate). -/
structure Repo where
  full_name : String
  description : Option String
  stargazers_count : Nat
deriving Repr, DecidableEq

/-- `struct Asset` from `src/main.rs`. -/
structure Asset where
  name : String
  browser_download_url : String
  size : Nat
deriving Repr, DecidableEq

/-- `struct Release` from `src/main.rs`. -/
structure Release where
  tag_name : String
  name : Option String
  assets : List Asset
deriving Repr, DecidableEq

/-- One HTTP response of the search endpoint, as seen by `fetch_repos_page`:
either a 429 (with the raw `retry-after` header value, `none` when the header
is absent or not convertible to a string), a successful response whose body
parses to `SearchResponse \x7b items \x7d`, or any other non-success status. -/
inductive HttpResponse where
  | tooMany (retryAfter : Option String)
  | success (items : List Repo)
  | otherError (status : Nat)
deriving Repr, DecidableEq

/-- Rust `str::parse::<u64>`: optional leading `+`, then one or more ASCII
decimal digits, failing on the empty string, on any non-digit, and on
overflow past `2^64 - 1`. -/
def parseU64 (s : String) : Option Nat :=
  let chars := if s.data.head? = some '+' then s.data.tail else s.data
  if chars ≠ [] ∧ chars.all Char.isDigit then
    let n := chars.foldl (fun acc c => acc * 10 + (c.toNat - '0'.toNat)) 0
    if n < 2 ^ 64 then some n else none
  else none

/-- The wait computation of `fetch_repos_page`: the `retry-after` header is
parsed as a `u64`; absence or unparseability falls back to 5 seconds
(`.unwrap_or(5)`). -/
def retryWait (retryAfter : Option String) : Nat :=
  (retryAfter.bind parseU64).getD 5

/-- The release-filter stage of `fetch_repos_page`: the `for repo in
search.items` loop keeps exactly the repos whose `latest_release` probe
succeeds (`probe` abstracts that network call), in input order. -/
def filterReleases (probe : String → Bool) : List Repo → List Repo
  | [] => []
  | r :: rs =>
    if probe r.full_name then r :: filterReleases probe rs
    else filterReleases probe rs

/-- Observable outcome of one `fetch_repos_page` call: how many attempts the
`loop` made, the seconds slept (in order), and the final result — `ok` with
the filtered candidates, or `error status` when `error_for_status` fails. -/
structure FetchTrace where
  attempts : Nat
  sleeps : List Nat
  result : Except Nat (List Repo)
deriving Repr

/-- The retry `loop` of `fetch_repos_page` (`src/main.rs` lines 234-264).
`attempts` is the counter value before the `attempts += 1` at the top of the
iteration, so the response consumed by Rust attempt `i` (1-based) is
`env (i - 1)`.  On a 429 the advised wait is always slept; the loop
`continue`s only while the incremented counter is below 3, otherwise the 429
falls through to `error_for_status` and becomes the final error. -/
def fetchAttempts (env : Nat → HttpResponse) (probe : String → Bool)
    (attempts : Nat) (sleeps : List Nat) : FetchTrace :=
  match env attempts with
  | .tooMany ra =>
    if _h : attempts + 1 < 3 then
      fetchAttempts env probe (attempts + 1) (sleeps ++ [retryWait ra])
    else
      { attempts := attempts + 1, sleeps := sleeps ++ [retryWait ra],
        result := .error 429 }
  | .success items =>
    { attempts := attempts + 1, sleeps := sleeps,
      result := .ok (filterReleases probe items) }
  | .otherError status =>
    { attempts := attempts + 1, sleeps := sleeps, result := .error status }
termination_by 3 - attempts
decreasing_by omega

/-- `fetch_repos_page` for a fixed query and page: run the retry loop from a
zero attempt counter. -/
def fetch_repos_page (env : Nat → HttpResponse) (probe : String → Bool) :
    FetchTrace :=
  fetchAttempts env probe 0 []

theorem fetchAttempts_tooMany_continue (env : Nat → HttpResponse)
    (probe : String → Bool) (attempts : Nat) (sleeps : List Nat)
    (ra : Option String) (h : env attempts = .tooMany ra)
    (hlt : attempts + 1 < 3) :
    fetchAttempts env probe attempts sleeps =
      fetchAttempts env probe (attempts + 1) (sleeps ++ [retryWait ra]) := by
  rw [fetchAttempts.eq_def, h]
  simp [hlt]

theorem fetchAttempts_tooMany_stop (env : Nat → HttpResponse)
    (probe : String → Bool) (attempts : Nat) (sleeps : List Nat)
    (ra : Option String) (h : env attempts = .tooMany ra)
    (hge : ¬ attempts + 1 < 3) :
    fetchAttempts env probe attempts sleeps =
      { attempts := attempts + 1, sleeps := sleeps ++ [retryWait ra],
        result := .error 429 } := by
  rw [fetchAttempts.eq_def, h]
  simp [hge]

theorem fetchAttempts_success (env : Nat → HttpResponse)
    (probe : String → Bool) (attempts : Nat) (sleeps : List Nat)
    (items : List Repo) (h : env attempts = .success items) :
    fetchAttempts env probe attempts sleeps =
      { attempts := attempts + 1, sleeps := sleeps,
        result := .ok (filterReleases probe items) } := by
  rw [fetchAttempts.eq_def, h]

/-- Claim C1: when every attempt of a page fetch receives a 429 response, the
fetch makes exactly 3 attempts, sleeps the server-advised wait taken from the
`retry-after` header between attempts (and once more after the last), where
an absent or unparseable header defaults to 5 seconds, and then terminates,
treating the last 429 as the final (error) response instead of retrying
further. -/
theorem rate_limit_terminates_after_three_attempts
    (env : Nat → HttpResponse) (probe : String → Bool)
    (ra : Nat → Option String) (h : ∀ i, i < 3 → env i = .tooMany (ra i)) :
    fetch_repos_page env probe =
      { attempts := 3,
        sleeps := [retryWait (ra 0), retryWait (ra 1), retryWait (ra 2)],
        result := .error 429 } ∧
    retryWait none = 5 ∧
    (∀ s, parseU64 s = none → retryWait (some s) = 5) := by
  refine ⟨?_, rfl, ?_⟩
  · rw [fetch_repos_page,
      fetchAttempts_tooMany_continue env probe 0 [] (ra 0) (h 0 (by omega))
        (by omega),
      fetchAttempts_tooMany_continue env probe 1 _ (ra 1) (h 1 (by omega))
        (by omega),
      fetchAttempts_tooMany_stop env probe 2 _ (ra 2) (h 2 (by omega))
        (by omega)]
    simp
  · intro s hs
    simp [retryWait, hs]

theorem rate_limit_terminates_after_three_attempts_witness :
    fetch_repos_page (fun _ => .tooMany none) (fun _ => true) =
      { attempts := 3, sleeps := [5, 5, 5], result := .error 429 } := by
  have h := rate_limit_terminates_after_three_attempts
    (fun _ => .tooMany none) (fun _ => true) (fun _ => none)
    (fun i _ => rfl)
  rw [h.1]
  rfl

/-- Claim C6: a rate-limit response on the early attempts followed by a
success response on a later attempt within the 3-attempt budget makes the
fetch's visible result exactly the parse-and-filter of the post-retry success
response. -/
theorem retry_then_success_returns_filtered
    (env : Nat → HttpResponse) (probe : String → Bool)
    (ra : Nat → Option String) (k : Nat) (items : List Repo)
    (hk : k < 3) (hrl : ∀ i, i < k → env i = .tooMany (ra i))
    (hs : env k = .success items) :
    (fetch_repos_page env probe).result =
      .ok (filterReleases probe items) := by
  rw [fetch_repos_page]
  interval_cases k
  · rw [fetchAttempts_success env probe 0 [] items hs]
  · rw [fetchAttempts_tooMany_continue env probe 0 [] (ra 0)
      (hrl 0 (by omega)) (by omega),
      fetchAttempts_success env probe 1 _ items hs]
  · rw [fetchAttempts_tooMany_continue env probe 0 [] (ra 0)
      (hrl 0 (by omega)) (by omega),
      fetchAttempts_tooMany_continue env probe 1 _ (ra 1)
      (hrl 1 (by omega)) (by omega),
      fetchAttempts_success env probe 2 _ items hs]

theorem retry_then_success_returns_filtered_witness :
    (fetch_repos_page
        (fun i => if i = 0 then .tooMany (some "1")
          else .success [{ full_name := "octo/repo", description := none,
                           stargazers_count := 7 }])
        (fun _ => true)).result =
      .ok [{ full_name := "octo/repo", description := none,
             stargazers_count := 7 }] := by
  have h := retry_then_success_returns_filtered
    (fun i => if i = 0 then .tooMany (some "1")
      else .success [{ full_name := "octo/repo", description := none,
                       stargazers_count := 7 }])
    (fun _ => true) (fun _ => some "1") 1
    [{ full_name := "octo/repo", description := none, stargazers_count := 7 }]
    (by omega) (fun i hi => by interval_cases i; rfl) rfl
  rw [h]
  rfl

/-- Claim C4: the release-filter stage keeps exactly the candidates whose
latest-release probe succeeds, preserving relative input order; in particular
on `[A, B, C]` with only `B`'s probe failing the output is `[A, C]`. -/
theorem filter_releases_preserves_order
    (probe : String → Bool) (A B C : Repo)
    (hA : probe A.full_name = true) (hB : probe B.full_name = false)
    (hC : probe C.full_name = true) :
    filterReleases probe [A, B, C] = [A, C] ∧
    (∀ rs : List Repo,
      filterReleases probe rs = rs.filter (fun r => probe r.full_name)) := by
  constructor
  · simp [filterReleases, hA, hB, hC]
  · intro rs
    induction rs with
    | nil => rfl
    | cons r rest ih =>
      by_cases hr : probe r.full_name
      · simp [filterReleases, hr, ih, List.filter]
      · simp [filterReleases, hr, ih, List.filter]

theorem filter_releases_preserves_order_witness :
    filterReleases (fun s => s ≠ "b/b")
      [{ full_name := "a/a", description := none, stargazers_count := 1 },
       { full_name := "b/b", description := none, stargazers_count := 2 },
       { full_name := "c/c", description := none, stargazers_count := 3 }] =
      [{ full_name := "a/a", description := none, stargazers_count := 1 },
       { full_name := "c/c", description := none, stargazers_count := 3 }] :=
  (filter_releases_preserves_order (fun s => s ≠ "b/b")
    { full_name := "a/a", description := none, stargazers_count := 1 }
    { full_name := "b/b", description := none, stargazers_count := 2 }
    { full_name := "c/c", description := none, stargazers_count := 3 }
    (by decide) (by decide) (by decide)).1

/-- The `while` loop of `fetch_all_repos` (`src/main.rs` lines 267-289).
`fetchPage perPage page` abstracts `fetch_repos_page(client, query, per_page,
page)` — its post-filter result or its error — and `?` propagation is the
`.error` case.  `all` and `page` are the loop's mutable state. -/
def fetchAllGo (fetchPage : Nat → Nat → Except Nat (List Repo))
    (all : List Repo) (page : Nat) : Except Nat (List Repo) :=
  if _hbudget : all.length < MAX_RESULTS then
    match fetchPage 100 page with
    | .error e => .error e
    | .ok fetched =>
      if hempty : fetched.isEmpty then .ok all
      else if MAX_RESULTS ≤ (all ++ fetched).length then
        .ok ((all ++ fetched).take MAX_RESULTS)
      else if fetched.length < 100 then .ok (all ++ fetched)
      else fetchAllGo fetchPage (all ++ fetched) (page + 1)
  else .ok all
termination_by MAX_RESULTS - all.length
decreasing_by
  have hne : fetched ≠ [] := fun hnil => hempty (by simp [hnil])
  have _hpos : 0 < fetched.length := List.length_pos.mpr hne
  simp only [List.length_append]
  omega

/-- `fetch_all_repos` from `src/main.rs`: start with an empty accumulator at
remote page 1 and a per-page size of 100. -/
def fetch_all_repos (fetchPage : Nat → Nat → Except Nat (List Repo)) :
    Except Nat (List Repo) :=
  fetchAllGo fetchPage [] 1

/-- Restatement of claim C3's wording (the comparison definition for the
refinement proof below): repeatedly consult the pages in order starting at 1,
stop when a page is empty, when a page is shorter than the remote page size
100, or when the accumulated total reaches the `MAX_RESULTS` budget, and
return the concatenation of the fetched pages truncated to `MAX_RESULTS`. -/
def fetchAllSpecGo (pages : Nat → List Repo) (acc : List Repo) (page : Nat) :
    List Repo :=
  if hfull : MAX_RESULTS ≤ acc.length then acc.take MAX_RESULTS
  else if hpage : pages page = [] then acc
  else if hshort : (pages page).length < 100 then
    (acc ++ pages page).take MAX_RESULTS
  else fetchAllSpecGo pages (acc ++ pages page) (page + 1)
termination_by MAX_RESULTS - acc.length
decreasing_by
  simp only [List.length_append, MAX_RESULTS] at *
  omega

/-- Claim C3's comparison definition, from page 1 with nothing accumulated. -/
def fetchAllSpec (pages : Nat → List Repo) : List Repo :=
  fetchAllSpecGo pages [] 1

/-- Claim C3: when every page fetch succeeds, `fetch_all_repos` computes
exactly the spec-worded accumulation `fetchAllSpec` — pages of remote size
100 consulted in order from page 1, stopping on an empty page, a short page,
or on reaching the 100-result budget, returning the concatenation truncated
to at most 100 candidates. -/
theorem fetch_all_matches_spec
    (fetchPage : Nat → Nat → Except Nat (List Repo))
    (pages : Nat → List Repo)
    (h : ∀ page, fetchPage 100 page = .ok (pages page)) :
    fetch_all_repos fetchPage = .ok (fetchAllSpec pages) ∧
    (fetchAllSpec pages).length ≤ MAX_RESULTS := by
  have hbase : fetch_all_repos fetchPage = .ok (fetchAllSpec pages) := by
    rw [fetch_all_repos, fetchAllSpec, fetchAllGo.eq_def, fetchAllSpecGo.eq_def,
      h 1]
    by_cases hpage : pages 1 = []
    · simp [hpage, MAX_RESULTS]
    · by_cases hshort : (pages 1).length < 100
      · by_cases hbig : MAX_RESULTS ≤ ([] ++ pages 1).length
        · simp only [MAX_RESULTS, List.nil_append] at hbig hshort
          omega
        · simp only [List.nil_append] at hbig ⊢
          have hempty : (pages 1).isEmpty = false := by
            simpa [List.isEmpty_iff] using hpage
          simp [MAX_RESULTS, hempty, hpage, hshort, hbig,
            List.take_of_length_le (Nat.le_of_lt hshort)]
      · have hempty : (pages 1).isEmpty = false := by
          simpa [List.isEmpty_iff] using hpage
        have hbig : MAX_RESULTS ≤ ([] ++ pages 1).length := by
          simp only [List.nil_append, MAX_RESULTS]
          omega
        rw [fetchAllSpecGo.eq_def]
        have h100 : 100 ≤ (pages 1).length := by omega
        simp [MAX_RESULTS, hempty, hpage, hshort, hbig, h100]
  refine ⟨hbase, ?_⟩
  rw [fetchAllSpec, fetchAllSpecGo.eq_def]
  by_cases hpage : pages 1 = []
  · simp [hpage, MAX_RESULTS]
  · by_cases hshort : (pages 1).length < 100
    · simp only [MAX_RESULTS, List.length_nil, List.nil_append]
      simp [hpage, hshort, List.length_take]
    · rw [fetchAllSpecGo.eq_def]
      have hbig : MAX_RESULTS ≤ ([] ++ pages 1).length := by
        simp only [List.nil_append, MAX_RESULTS]
        omega
      simp only [MAX_RESULTS] at hbig ⊢
      have h100 : 100 ≤ (pages 1).length := by omega
      simp [hpage, hshort, hbig, h100, List.length_take]

theorem fetch_all_matches_spec_witness :
    fetch_all_repos
        (fun _ _ => .ok [{ full_name := "octo/repo", description := none,
                           stargazers_count := 7 }]) =
      .ok (fetchAllSpec
        (fun _ => [{ full_name := "octo/repo", description := none,
                     stargazers_count := 7 }])) :=
  (fetch_all_matches_spec
    (fun _ _ => .ok [{ full_name := "octo/repo", description := none,
                       stargazers_count := 7 }])
    (fun _ => [{ full_name := "octo/repo", description := none,
                 stargazers_count := 7 }])
    (fun _ => rfl)).1

/-- `total_pages` from `main` (`src/main.rs` line 93): ceiling division of the
accumulated result count by `DISPLAY_PAGE_SIZE`. -/
def total_pages (resultCount : Nat) : Nat :=
  (resultCount + DISPLAY_PAGE_SIZE - 1) / DISPLAY_PAGE_SIZE

/-- The starting-page clamp from `main` (`src/main.rs` line 94):
`args.page.max(1).min(total_pages.max(1))`. -/
def clampStartPage (requested totalPages : Nat) : Nat :=
  min (max requested 1) (max totalPages 1)

/-- The displayed window of `main` (`src/main.rs` lines 97-99): `start =
(page - 1) * DISPLAY_PAGE_SIZE`, `end = min (start + DISPLAY_PAGE_SIZE)
repos.len()`, slice `repos[start..end]`. -/
def pageSlice (repos : List Repo) (page : Nat) : List Repo :=
  let start := (page - 1) * DISPLAY_PAGE_SIZE
  let stop := min (start + DISPLAY_PAGE_SIZE) repos.length
  (repos.take stop).drop start

/-- The `"n"` branch of `main`'s menu loop (`src/main.rs` lines 125-131):
advance when `page < total_pages`, otherwise keep the page and report
"No more pages." (the boolean). -/
def nextPageCommand (totalPages page : Nat) : Nat × Bool :=
  if page < totalPages then (page + 1, false) else (page, true)

/-- The numeric-selection branch of `main`'s menu loop (`src/main.rs` lines
143-147): a parsed number is accepted only when `1 ≤ num ∧ num ≤
slice.len()`, in which case `slice[num - 1]` is selected; anything else is
rejected (the loop re-prompts). -/
def selectChoice (slice : List Repo) (num : Nat) : Option Repo :=
  if 1 ≤ num ∧ num ≤ slice.length then slice[num - 1]? else none

/-- Claim C5: with 37 accumulated candidates and a window of 25, display page
1 is exactly indices 0-24, display page 2 is exactly indices 25-36, together
they partition the sequence (no truncation, no duplication), and a "next"
command on page 2 reports no more pages and leaves the page at 2. -/
theorem windowing_thirty_seven (repos : List Repo) (h : repos.length = 37) :
    pageSlice repos 1 = repos.take 25 ∧
    (pageSlice repos 1).length = 25 ∧
    pageSlice repos 2 = repos.drop 25 ∧
    (pageSlice repos 2).length = 12 ∧
    pageSlice repos 1 ++ pageSlice repos 2 = repos ∧
    total_pages repos.length = 2 ∧
    nextPageCommand (total_pages repos.length) 2 = (2, true) := by
  have h1 : pageSlice repos 1 = repos.take 25 := by
    simp [pageSlice, DISPLAY_PAGE_SIZE, h]
  have h2 : pageSlice repos 2 = repos.drop 25 := by
    have htake : repos.take 37 = repos := List.take_of_length_le (by omega)
    simp [pageSlice, DISPLAY_PAGE_SIZE, h, htake]
  refine ⟨h1, ?_, h2, ?_, ?_, ?_, ?_⟩
  · rw [h1]
    simp [List.length_take, h]
  · rw [h2]
    simp [List.length_drop, h]
  · rw [h1, h2, List.take_append_drop]
  · rw [h]
    rfl
  · rw [h]
    rfl

theorem windowing_thirty_seven_witness :
    pageSlice (List.replicate 37
        { full_name := "octo/repo", description := none,
          stargazers_count := 7 }) 1 ++
      pageSlice (List.replicate 37
        { full_name := "octo/repo", description := none,
          stargazers_count := 7 }) 2 =
      List.replicate 37
        { full_name := "octo/repo", description := none,
          stargazers_count := 7 } :=
  (windowing_thirty_seven
    (List.replicate 37
      { full_name := "octo/repo", description := none,
        stargazers_count := 7 })
    (by simp)).2.2.2.2.1

/-- Claim C7: for a non-empty result set, any requested 1-based starting page
(0 and overlarge values included) is clamped into `[1, total_pages]`, and the
resulting window's start offset lies inside the accumulated sequence. -/
theorem clamp_start_page (resultCount requested : Nat)
    (h : 0 < resultCount) :
    1 ≤ clampStartPage requested (total_pages resultCount) ∧
    clampStartPage requested (total_pages resultCount) ≤
      total_pages resultCount ∧
    (clampStartPage requested (total_pages resultCount) - 1) *
      DISPLAY_PAGE_SIZE < resultCount := by
  simp only [clampStartPage, total_pages, DISPLAY_PAGE_SIZE]
  omega

theorem clamp_start_page_witness :
    1 ≤ clampStartPage 99 (total_pages 37) ∧
    clampStartPage 99 (total_pages 37) ≤ total_pages 37 ∧
    (clampStartPage 99 (total_pages 37) - 1) * DISPLAY_PAGE_SIZE < 37 :=
  clamp_start_page 37 99 (by decide)

/-- Claim C8: a numeric selection is accepted exactly when it lies in
`[1, slice.length]` for the currently displayed slice — anything else yields
no selection (the menu re-prompts) — and an accepted number `num` selects the
in-bounds element `num - 1` of the displayed slice itself, never an index
into the full accumulated sequence. -/
theorem select_within_window (slice : List Repo) (num : Nat) :
    (¬(1 ≤ num ∧ num ≤ slice.length) → selectChoice slice num = none) ∧
    ((1 ≤ num ∧ num ≤ slice.length) →
      ∃ hlt : num - 1 < slice.length,
        selectChoice slice num = some (slice.get ⟨num - 1, hlt⟩)) := by
  constructor
  · intro hout
    simp [selectChoice, hout]
  · rintro ⟨h1, h2⟩
    have hlt : num - 1 < slice.length := by omega
    refine ⟨hlt, ?_⟩
    simp only [selectChoice, if_pos (And.intro h1 h2)]
    rw [List.getElem?_eq_getElem hlt]
    rfl

theorem select_within_window_witness :
    selectChoice [{ full_name := "octo/repo", description := none,
                    stargazers_count := 7 }] 2 = none ∧
    selectChoice [{ full_name := "octo/repo", description := none,
                    stargazers_count := 7 }] 1 =
      some { full_name := "octo/repo", description := none,
             stargazers_count := 7 } := by
  constructor
  · exact (select_within_window
      [{ full_name := "octo/repo", description := none,
         stargazers_count := 7 }] 2).1 (by decide)
  · obtain ⟨hlt, he⟩ := (select_within_window
      [{ full_name := "octo/repo", description := none,
         stargazers_count := 7 }] 1).2 (by decide)
    exact he

/-- Observable effects of `main` after a repository has been selected and its
latest release fetched (`src/main.rs` lines 154-191): what is printed, whether
the asset-selection prompt is shown, whether the destination directory is
created, which assets are downloaded, and the exit code (`Ok(())` = 0). -/
structure PostSelection where
  printed : List String
  promptedAsset : Bool
  createdDir : Bool
  downloads : List Asset
  exitCode : Nat
deriving Repr, DecidableEq

/-- The tail of `main` from the `latest_release` result onward: with an empty
asset list it prints the notice naming the release tag and returns `Ok(())`;
otherwise it prompts for an asset (`assetChoice` abstracts the user's
`Select` answer, always in bounds in the real UI), creates the destination
directory and downloads the chosen asset. -/
def handleRelease (release : Release) (assetChoice : Nat) : PostSelection :=
  if release.assets.isEmpty then
    { printed := ["Latest release '" ++ release.tag_name ++
        "' has no downloadable assets."],
      promptedAsset := false, createdDir := false, downloads := [],
      exitCode := 0 }
  else
    match release.assets[assetChoice]? with
    | some asset =>
      { printed := ["Downloading " ++ asset.name, "Done."],
        promptedAsset := true, createdDir := true, downloads := [asset],
        exitCode := 0 }
    | none =>
      { printed := [], promptedAsset := true, createdDir := false,
        downloads := [], exitCode := 1 }

/-- Claim C10: when the latest release of the selected repository has an
empty asset list, the program prints the notice naming the release tag and
exits with code 0, without prompting for an asset, creating the destination
directory, or downloading anything. -/
theorem empty_assets_notice_and_exit (release : Release) (assetChoice : Nat)
    (h : release.assets = []) :
    handleRelease release assetChoice =
      { printed := ["Latest release '" ++ release.tag_name ++
          "' has no downloadable assets."],
        promptedAsset := false, createdDir := false, downloads := [],
        exitCode := 0 } := by
  simp [handleRelease, h]

theorem empty_assets_notice_and_exit_witness :
    handleRelease { tag_name := "v1.0", name := none, assets := [] } 0 =
      { printed := ["Latest release 'v1.0' has no downloadable assets."],
        promptedAsset := false, createdDir := false, downloads := [],
        exitCode := 0 } :=
  empty_assets_notice_and_exit
    { tag_name := "v1.0", name := none, assets := [] } 0 rfl

/-- Modelled from the spec: the `ResultCache` / `QueryCacheEntry` component
(spec §3, §4.4) belongs to a repository iteration that is not present in
`src/main.rs` (the spec notes the repository holds three evolving iterations
and only the final one is in `src/`).  Per the spec, an entry owns all cached
pages of one query plus the `fully_fetched` flag. -/
structure QueryCacheEntry where
  pages : List (Nat × List Repo)
  fully_fetched : Bool
deriving Repr, DecidableEq

/-- Modelled from the spec: the cache is a mapping from the exact query
string to its `QueryCacheEntry` (spec §3 "Cache"). -/
abbrev Cache := List (String × QueryCacheEntry)

/-- Association-list lookup of a query's cache entry. -/
def lookupEntry : Cache → String → Option QueryCacheEntry
  | [], _ => none
  | (k, v) :: rest, q => if k = q then some v else lookupEntry rest q

/-- Association-list lookup of a cached page inside an entry. -/
def lookupPage : List (Nat × List Repo) → Nat → Option (List Repo)
  | [], _ => none
  | (p, rs) :: rest, page => if p = page then some rs else lookupPage rest page

/-- Highest page number cached for an entry (0 when nothing is cached). -/
def maxCachedPage (pages : List (Nat × List Repo)) : Nat :=
  pages.foldr (fun pr acc => max pr.1 acc) 0

/-- The three outcomes of `ResultCache.get` (spec §4.4): a hit with the
stored sequence, the "known exhausted" answer (an empty sequence, no fetch),
or a miss that requires a remote fetch. -/
inductive CacheLookup where
  | hit (repos : List Repo)
  | exhaustedEmpty
  | miss
deriving Repr, DecidableEq

/-- Modelled from the spec: `get(query, page)` (spec §4.4) — a stored page is
a hit served without network access; when `fully_fetched` is set and the
requested page exceeds the highest cached page the answer is an empty
sequence; otherwise a miss. -/
def cacheGet (c : Cache) (q : String) (page : Nat) : CacheLookup :=
  match lookupEntry c q with
  | none => .miss
  | some entry =>
    match lookupPage entry.pages page with
    | some rs => .hit rs
    | none =>
      if entry.fully_fetched ∧ maxCachedPage entry.pages < page then
        .exhaustedEmpty
      else .miss

/-- Insert-or-replace of a query's entry in the cache mapping. -/
def setEntry : Cache → String → QueryCacheEntry → Cache
  | [], q, e => [(q, e)]
  | (k, v) :: rest, q, e =>
    if k = q then (q, e) :: rest else (k, v) :: setEntry rest q e

/-- Modelled from the spec: `put(query, page, sequence, perPage)` (spec §4.4)
— the page is stored verbatim, and `fully_fetched` is set when the stored
sequence is shorter than the configured remote page size. -/
def cachePut (c : Cache) (q : String) (page : Nat) (rs : List Repo)
    (perPage : Nat) : Cache :=
  let entry := (lookupEntry c q).getD { pages := [], fully_fetched := false }
  setEntry c q
    { pages := entry.pages ++ [(page, rs)],
      fully_fetched := entry.fully_fetched || decide (rs.length < perPage) }

/-- Modelled from the spec: one fetch of `(query, page)` through the cache
(spec §2 data flow "via ResultCache short-circuit"): a hit or a
known-exhausted answer costs no network call; a miss performs the remote
fetch (`network` is the page the remote search would return, post-filter)
and stores it.  The returned `Nat` counts the remote search calls made. -/
def cachedFetchPage (network : List Repo) (perPage : Nat) (c : Cache)
    (q : String) (page : Nat) : List Repo × Cache × Nat :=
  match cacheGet c q page with
  | .hit rs => (rs, c, 0)
  | .exhaustedEmpty => ([], c, 0)
  | .miss => (network, cachePut c q page network perPage, 1)

/-- Claim C2 (spec-modelled): starting from an empty cache, fetching the same
`(query, page)` twice performs the remote search exactly once — the first
call fetches and stores the page, the second is served as a hit from the
store, returns the same sequence, makes no network call, and leaves the
cache unchanged. -/
theorem cache_fetch_idempotent (q : String) (page perPage : Nat)
    (network : List Repo) :
    (cachedFetchPage network perPage [] q page).2.2 = 1 ∧
    (cachedFetchPage network perPage [] q page).1 = network ∧
    cacheGet (cachedFetchPage network perPage [] q page).2.1 q page =
      .hit network ∧
    (cachedFetchPage network perPage
        (cachedFetchPage network perPage [] q page).2.1 q page) =
      (network, (cachedFetchPage network perPage [] q page).2.1, 0) := by
  have hget : cacheGet [] q page = .miss := rfl
  have hstore : (cachedFetchPage network perPage [] q page).2.1 =
      [(q, { pages := [(page, network)],
             fully_fetched := decide (network.length < perPage) })] := by
    simp [cachedFetchPage, hget, cachePut, lookupEntry, setEntry]
  have hhit : cacheGet (cachedFetchPage network perPage [] q page).2.1 q page =
      .hit network := by
    rw [hstore]
    simp [cacheGet, lookupEntry, lookupPage]
  refine ⟨rfl, rfl, hhit, ?_⟩
  obtain ⟨c1, hc1⟩ : ∃ c1, (cachedFetchPage network perPage [] q page).2.1 = c1 :=
    ⟨_, rfl⟩
  rw [hc1] at hhit ⊢
  simp [cachedFetchPage, hhit]

/-- Split a character list at every `'\n'` (the segments between newlines,
in order); always returns at least one segment.  This is the segment
structure underlying Rust's `str::lines`, which `strip_code_fence` uses. -/
def splitNlChars : List Char → List (List Char)
  | [] => [[]]
  | c :: rest =>
    match splitNlChars rest with
    | [] => [[c]]
    | seg :: segs => if c = '\n' then [] :: seg :: segs else (c :: seg) :: segs

/-- Rust `str::lines` strips one trailing `'\r'` from every line that was
terminated by a `'\n'`. -/
def stripCr (seg : List Char) : List Char :=
  if seg.getLast? = some '\r' then seg.dropLast else seg

/-- Rust `str::lines` on the newline segments: every segment but the last
was `'\n'`-terminated, so its trailing `'\r'` (if any) is stripped; a final
empty segment (i.e. a trailing line terminator) yields no line; a final
non-empty segment is kept verbatim. -/
def rustLinesChars : List (List Char) → List (List Char)
  | [] => []
  | [last] => if last = [] then [] else [last]
  | seg :: rest => stripCr seg :: rustLinesChars rest

/-- Rust `str::lines` for a whole string, as character lists. -/
def rustLines (s : String) : List (List Char) :=
  rustLinesChars (splitNlChars s.data)

/-- Rust `str::trim` on a character list (both ends; the whitespace that
occurs here is ASCII, where `Char.isWhitespace` agrees with Rust's
`char::is_whitespace`). -/
def trimChars (l : List Char) : List Char :=
  ((l.dropWhile Char.isWhitespace).reverse.dropWhile Char.isWhitespace).reverse

/-- The closing-fence marker compared against `line.trim()` in
`strip_code_fence`. -/
def fenceChars : List Char := ['`', '`', '`']

/-- The `for line in lines` loop of `strip_code_fence`: collect lines until
one trims to the bare closing fence. -/
def takeBodyLines : List (List Char) → List (List Char)
  | [] => []
  | line :: rest =>
    if trimChars line = fenceChars then [] else line :: takeBodyLines rest

/-- `strip_code_fence` from `src/main.rs` (lines 393-415): requires a
leading triple-backtick, drops the opening fence line (language tag
included), collects body lines until a bare closing fence, fails on an empty
body, and returns the remaining lines joined by `'\n'` and trimmed. -/
def strip_code_fence (input : String) : Option String :=
  if fenceChars.isPrefixOf input.data then
    match rustLines input with
    | [] => none
    | _opening :: rest =>
      let body_lines := takeBodyLines rest
      if body_lines = [] then none
      else some (String.mk (trimChars (List.intercalate ['\n'] body_lines)))
  else none

/-- `truncate_preview` from `src/main.rs`: the first `max_chars` characters,
with an ellipsis appended when the content is longer. -/
def truncate_preview (content : String) (max_chars : Nat) : String :=
  let preview := String.mk (content.data.take max_chars)
  if max_chars < content.data.length then preview ++ "…" else preview

/-- `parse_query_from_content` from `src/main.rs` (lines 373-391).
`fromStr` abstracts `serde_json::from_str::<Suggestion>` of the external
serde crate, returning the `query` field of a successfully deserialized
suggestion: try the content as-is, else trim it, strip a code fence and try
the stripped body, else report the parse error with a preview. -/
def parse_query_from_content (fromStr : String → Option String)
    (content : String) : Except String String :=
  match fromStr content with
  | some query => .ok query
  | none =>
    match (strip_code_fence (String.mk (trimChars content.data))).bind
        fromStr with
    | some query => .ok query
    | none =>
      .error ("OpenAI response was not valid JSON (first 200 chars): " ++
        truncate_preview content 200)

/-- A body wrapped in triple-backtick code fences, with `tag` the (possibly
empty) language tag on the opening fence. -/
def fencedBody (tag body : String) : String :=
  "```" ++ tag ++ "\n" ++ body ++ "\n```"

/-- What fence-stripping recovers from the wrapped body: the body's newline
segments with terminator `'\r'`s stripped, rejoined with `'\n'` and
trimmed. -/
def fenceNormalize (body : String) : String :=
  String.mk (trimChars
    (List.intercalate ['\n'] ((splitNlChars body.data).map stripCr)))

theorem splitNlChars_ne_nil (l : List Char) : splitNlChars l ≠ [] := by
  cases l with
  | nil => simp [splitNlChars]
  | cons c rest =>
    simp only [splitNlChars]
    rcases splitNlChars rest with _ | ⟨seg, segs⟩
    · simp
    · by_cases hc : c = '\n' <;> simp [hc]

theorem splitNlChars_append_newline (l1 l2 : List Char) :
    splitNlChars (l1 ++ '\n' :: l2) = splitNlChars l1 ++ splitNlChars l2 := by
  induction l1 with
  | nil =>
    simp only [List.nil_append, splitNlChars]
    split
    · next heq => exact absurd heq (splitNlChars_ne_nil l2)
    · next seg segs heq => rw [heq] at *; simp_all
  | cons c rest ih =>
    rw [List.cons_append]
    rcases h : splitNlChars rest with _ | ⟨seg, segs⟩
    · exact absurd h (splitNlChars_ne_nil rest)
    · have ih' : splitNlChars (rest ++ '\n' :: l2) =
          seg :: (segs ++ splitNlChars l2) := by
        rw [ih, h, List.cons_append]
      simp only [splitNlChars]
      rw [ih', h]
      by_cases hc : c = '\n' <;> simp [hc]

theorem splitNlChars_no_newline (l : List Char) (h : '\n' ∉ l) :
    splitNlChars l = [l] := by
  induction l with
  | nil => rfl
  | cons c rest ih =>
    have hc : c ≠ '\n' := fun hc => h (hc ▸ List.mem_cons_self c rest)
    have hrest : '\n' ∉ rest := fun hm => h (List.mem_cons_of_mem c hm)
    simp only [splitNlChars, ih hrest]
    simp [hc]

theorem rustLinesChars_cons_of_ne (seg : List Char)
    (rest : List (List Char)) (h : rest ≠ []) :
    rustLinesChars (seg :: rest) = stripCr seg :: rustLinesChars rest := by
  cases rest with
  | nil => exact absurd rfl h
  | cons a tail => rfl

theorem rustLinesChars_append_singleton (L : List (List Char))
    (f : List Char) (hf : f ≠ []) :
    rustLinesChars (L ++ [f]) = L.map stripCr ++ [f] := by
  induction L with
  | nil => simp [rustLinesChars, hf]
  | cons seg L ih =>
    rw [List.cons_append,
      rustLinesChars_cons_of_ne seg (L ++ [f]) (by simp), ih]
    simp

theorem takeBodyLines_append_fence (L : List (List Char))
    (h : ∀ l ∈ L, trimChars l ≠ fenceChars) :
    takeBodyLines (L ++ [fenceChars]) = L := by
  induction L with
  | nil =>
    simp only [List.nil_append, takeBodyLines]
    rw [if_pos (by decide)]
  | cons line L ih =>
    have hline : trimChars line ≠ fenceChars := h line (by simp)
    rw [List.cons_append]
    simp only [takeBodyLines]
    rw [if_neg hline, ih (fun l hl => h l (List.mem_cons_of_mem line hl))]

theorem stringMkData (s : String) : String.mk s.data = s := rfl

theorem strDataAppend (a b : String) : (a ++ b).data = a.data ++ b.data := rfl

theorem trimChars_fence_wrapped (mid : List Char) :
    trimChars ('`' :: mid ++ ['`']) = '`' :: mid ++ ['`'] := by
  have hws : '`'.isWhitespace = false := rfl
  have h1 : ('`' :: mid ++ ['`']).dropWhile Char.isWhitespace =
      '`' :: mid ++ ['`'] := by
    rw [List.cons_append, List.dropWhile_cons, hws]
    simp
  have h2 : ('`' :: mid ++ ['`']).reverse = '`' :: (mid.reverse ++ ['`']) := by
    simp
  have h3 : ('`' :: (mid.reverse ++ ['`'])).dropWhile Char.isWhitespace =
      '`' :: (mid.reverse ++ ['`']) := by
    rw [List.dropWhile_cons, hws]
    simp
  rw [trimChars, h1, h2, h3]
  simp

theorem fencedBody_data (tag body : String) :
    (fencedBody tag body).data =
      (fenceChars ++ tag.data) ++
        '\n' :: (body.data ++ '\n' :: fenceChars) := by
  simp [fencedBody, strDataAppend, fenceChars]

theorem trimChars_fencedBody (tag body : String) :
    trimChars (fencedBody tag body).data = (fencedBody tag body).data := by
  have h : (fencedBody tag body).data =
      '`' :: (('`' :: '`' :: tag.data) ++
        '\n' :: body.data ++ ['\n', '`', '`']) ++ ['`'] := by
    rw [fencedBody_data]
    simp [fenceChars]
  rw [h, trimChars_fence_wrapped]

theorem strip_code_fence_fenced (tag body : String)
    (htag : '\n' ∉ tag.data)
    (hbody : ∀ seg ∈ splitNlChars body.data,
      trimChars (stripCr seg) ≠ fenceChars) :
    strip_code_fence (fencedBody tag body) = some (fenceNormalize body) := by
  have hnofenceA : '\n' ∉ fenceChars ++ tag.data := by
    intro hm
    rcases List.mem_append.mp hm with hm | hm
    · simp [fenceChars] at hm
    · exact htag hm
  have hsplit : splitNlChars (fencedBody tag body).data =
      (fenceChars ++ tag.data) ::
        (splitNlChars body.data ++ [fenceChars]) := by
    rw [fencedBody_data, splitNlChars_append_newline,
      splitNlChars_no_newline _ hnofenceA,
      splitNlChars_append_newline,
      splitNlChars_no_newline fenceChars (by simp [fenceChars])]
    simp
  have hlines : rustLines (fencedBody tag body) =
      stripCr (fenceChars ++ tag.data) ::
        ((splitNlChars body.data).map stripCr ++ [fenceChars]) := by
    rw [rustLines, hsplit,
      rustLinesChars_cons_of_ne _ _ (by simp),
      rustLinesChars_append_singleton _ _ (by simp [fenceChars])]
  have hprefix : fenceChars.isPrefixOf (fencedBody tag body).data = true := by
    rw [List.isPrefixOf_iff_prefix, fencedBody_data]
    exact ⟨tag.data ++ '\n' :: (body.data ++ '\n' :: fenceChars),
      by simp [List.append_assoc]⟩
  have htake : takeBodyLines
      ((splitNlChars body.data).map stripCr ++ [fenceChars]) =
      (splitNlChars body.data).map stripCr := by
    apply takeBodyLines_append_fence
    intro l hl
    rcases List.mem_map.mp hl with ⟨seg, hseg, rfl⟩
    exact hbody seg hseg
  have hne : (splitNlChars body.data).map stripCr ≠ [] := by
    intro hnil
    exact splitNlChars_ne_nil body.data (List.map_eq_nil_iff.mp hnil)
  rw [strip_code_fence, if_pos hprefix, hlines]
  simp only [htake, if_neg hne]
  rfl

/-- Claim C9: a suggestion body wrapped in triple-backtick code fences (with
or without a language tag on the opening fence) parses to the same suggested
query as the unfenced body.  `fromStr` abstracts `serde_json`, so the
JSON-specific facts appear as hypotheses, each true of JSON deserialization:
the body parses to the suggestion `q`, it still does after newline
normalization and trimming (JSON is whitespace-insensitive between tokens),
the fenced text itself does not parse (it starts with backticks), the tag
holds no newline, and no line of a parseable JSON body trims to a bare
fence (backticks cannot occur outside strings and JSON strings hold no raw
newline). -/
theorem parse_fenced_eq_unfenced
    (fromStr : String → Option String) (tag body q : String)
    (hq : fromStr body = some q)
    (hfenced : fromStr (fencedBody tag body) = none)
    (htag : '\n' ∉ tag.data)
    (hbody : ∀ seg ∈ splitNlChars body.data,
      trimChars (stripCr seg) ≠ fenceChars)
    (hnorm : fromStr (fenceNormalize body) = some q) :
    parse_query_from_content fromStr (fencedBody tag body) = .ok q ∧
    parse_query_from_content fromStr body = .ok q := by
  constructor
  · have htrim : String.mk (trimChars (fencedBody tag body).data) =
        fencedBody tag body := by
      rw [trimChars_fencedBody, stringMkData]
    rw [parse_query_from_content, hfenced, htrim,
      strip_code_fence_fenced tag body htag hbody]
    simp [hnorm]
  · rw [parse_query_from_content, hq]

theorem parse_fenced_eq_unfenced_witness :
    parse_query_from_content
        (fun s => if s = "\x7b\"query\":\"ripgrep\"\x7d" then some "ripgrep"
          else none)
        (fencedBody "json" "\x7b\"query\":\"ripgrep\"\x7d") =
      .ok "ripgrep" ∧
    parse_query_from_content
        (fun s => if s = "\x7b\"query\":\"ripgrep\"\x7d" then some "ripgrep"
          else none)
        "\x7b\"query\":\"ripgrep\"\x7d" =
      .ok "ripgrep" :=
  parse_fenced_eq_unfenced
    (fun s => if s = "\x7b\"query\":\"ripgrep\"\x7d" then some "ripgrep"
      else none)
    "json" "\x7b\"query\":\"ripgrep\"\x7d" "ripgrep"
    (by decide) (by decide) (by decide) (by decide) (by decide)

end GritFind
